import Mathlib

/-!
Shallow embedding of the bucketed endpoint-error metric accumulator
(`EndpointDistanceMetricRawTorch`) and the epoch-end gather/reset/report
protocol (`ModelWrapper.validation_epoch_end`) of `model_wrapper.py`.

Modelling conventions:
* torch float tensors are modelled with exact reals (`ℝ`); torch long
  tensors (counts) with `ℕ`;
* a rank-2 torch tensor is a column count together with its list of rows,
  so that its `shape` is the pair `(rows.length, cols)`;
* the 4-D accumulator tensors are modelled as functions from the four
  indices; cells outside the allocated shape are simply never touched;
* a Python `assert` failure or `KeyError` is an `Except.error`.
-/

open scoped Classical

noncomputable section

/-- A rank-2 torch tensor: a column count together with the rows. -/
structure Tensor2 where
  cols : ℕ
  rows : List (List ℝ)

/-- The pair `(t.shape[0], t.shape[1])` of a rank-2 tensor. -/
def Tensor2.shape (t : Tensor2) : ℕ × ℕ := (t.rows.length, t.cols)

/-- `torch.norm(r, p=2)` of one row: the Euclidean norm. -/
def l2norm (r : List ℝ) : ℝ := Real.sqrt ((r.map (fun x => x ^ 2)).sum)

/-- `torch.norm(r, p=np.inf)` of one row: the largest absolute entry. -/
def linfNorm (r : List ℝ) : ℝ := (r.map (fun x => |x|)).foldr max 0

/-- `pc[:, :2]` of one row followed by its L-infinity norm
(model_wrapper.py lines 94-95). -/
def xyDist (r : List ℝ) : ℝ := linfNorm (r.take 2)

/-- Row-wise `regressed_flow - gt_flow`. -/
def rowsSub (a b : List (List ℝ)) : List (List ℝ) :=
  List.zipWith (List.zipWith (fun x y => x - y)) a b

/-- The two fatal failure modes of `update_class_error`:
an `assert` on the shapes, or a `KeyError` on the category-id lookup. -/
inductive MetricUpdateError where
  | ShapeMismatch
  | UnknownCategory
deriving DecidableEq

/-- State of one `EndpointDistanceMetricRawTorch` instance
(model_wrapper.py lines 14-50).  The configured tables are kept next to the
four accumulator tensors, exactly as the Python object does. -/
structure EndpointDistanceMetricRawTorch where
  classIdToNameMap : List (ℤ × String)
  speedBucketSplitsMetersPerSecond : List ℝ
  endpointErrorSplitsMeters : List ℝ
  closeObjectThresholdMeters : ℝ
  perFrameToPerSecondScaleFactor : ℝ
  perClassBucketedErrorSum : ℕ → ℕ → ℕ → ℕ → ℝ
  perClassBucketedErrorCount : ℕ → ℕ → ℕ → ℕ → ℕ
  totalForwardTime : ℝ
  totalForwardCount : ℕ

abbrev Metric := EndpointDistanceMetricRawTorch

theorem metric_fields_ext {a b : Metric}
    (h1 : a.classIdToNameMap = b.classIdToNameMap)
    (h2 : a.speedBucketSplitsMetersPerSecond = b.speedBucketSplitsMetersPerSecond)
    (h3 : a.endpointErrorSplitsMeters = b.endpointErrorSplitsMeters)
    (h4 : a.closeObjectThresholdMeters = b.closeObjectThresholdMeters)
    (h5 : a.perFrameToPerSecondScaleFactor = b.perFrameToPerSecondScaleFactor)
    (h6 : a.perClassBucketedErrorSum = b.perClassBucketedErrorSum)
    (h7 : a.perClassBucketedErrorCount = b.perClassBucketedErrorCount)
    (h8 : a.totalForwardTime = b.totalForwardTime)
    (h9 : a.totalForwardCount = b.totalForwardCount) : a = b := by
  cases a; cases b; simp_all

/-- The default `close_object_threshold_meters` of the constructor
(model_wrapper.py line 20); `ModelWrapper.__init__` (line 164) does not
override it. -/
def defaultCloseObjectThresholdMeters : ℝ := 35.0

/-- The default `per_frame_to_per_second_scale_factor` (line 21). -/
def defaultPerFrameToPerSecondScaleFactor : ℝ := 10.0

/-- A freshly constructed metric, as built by `ModelWrapper.__init__`
(model_wrapper.py lines 164-166): both bucketed tensors are `torch.zeros`,
the runtime totals are zero, and both optional constructor arguments keep
their defaults. -/
def mkMetricDefault (pairs : List (ℤ × String)) (sSplits eSplits : List ℝ) : Metric :=
  ⟨pairs, sSplits, eSplits,
   defaultCloseObjectThresholdMeters, defaultPerFrameToPerSecondScaleFactor,
   fun _ _ _ _ => 0, fun _ _ _ _ => 0, 0, 0⟩

/-- The `class_id_to_index_map` built in `__init__` (lines 22-27): the
category ids in table order, each paired with its enumeration index. -/
def classIdToIndexMap (m : Metric) : List (ℤ × ℕ) :=
  m.classIdToNameMap.enum.map (fun p => (p.2.1, p.1))

/-- `list(zip(splits, splits[1:]))`: consecutive boundary pairs
(model_wrapper.py lines 73-81, `speed_bucket_bounds` / `epe_bucket_bounds`). -/
def bucketBounds (splits : List ℝ) : List (ℝ × ℝ) := splits.zip splits.tail

/-- The close-object test `point_xy_distance <= close_object_threshold_meters`
(line 96). -/
def isClose (thr d : ℝ) : Prop := d ≤ thr

/-- Position `c` of the enumeration `[is_close_mask, ~is_close_mask]`
(lines 105-106): slice 0 holds the close points, slice 1 their complement. -/
def closeMaskAt (c : ℕ) (close : Prop) : Prop := if c = 0 then close else ¬ close

/-- The proximity index resolved for a point at xy-distance `d`. -/
def closeIdx (thr d : ℝ) : ℕ := if d ≤ thr then 0 else 1

/-- The half-open bucket test `(v >= lower) & (v < upper)`
(lines 110-111 and 116-118). -/
def inBounds (b : ℝ × ℝ) (v : ℝ) : Prop := b.1 ≤ v ∧ v < b.2

/-- Per-point statistics `(xy_distance, endpoint_error, gt_speed)`
computed in lines 94-102 of `update_class_error`. -/
def pointStats (pc reg gt : Tensor2) (scale : ℝ) : List (ℝ × ℝ × ℝ) :=
  (pc.rows.map xyDist).zip
    (((rowsSub reg.rows gt.rows).map l2norm).zip
      (gt.rows.map (fun r => l2norm r * scale)))

/-- `total_mask = close_mask & speed_mask & endpoint_error_mask` (line 119)
for one point's statistics triple. -/
def totalMask (thr : ℝ) (c : ℕ) (bs be : ℝ × ℝ) (t : ℝ × ℝ × ℝ) : Prop :=
  closeMaskAt c (isClose thr t.1) ∧ inBounds bs t.2.2 ∧ inBounds be t.2.1

/-- `torch.sum(endpoint_errors[total_mask])` (line 123). -/
def maskedEpeSum (thr : ℝ) (c : ℕ) (bs be : ℝ × ℝ) (stats : List (ℝ × ℝ × ℝ)) : ℝ :=
  (stats.map (fun t => if totalMask thr c bs be t then t.2.1 else 0)).sum

/-- `torch.sum(total_mask)` (line 126). -/
def maskedCount (thr : ℝ) (c : ℕ) (bs be : ℝ × ℝ) (stats : List (ℝ × ℝ × ℝ)) : ℕ :=
  (stats.map (fun t => if totalMask thr c bs be t then 1 else 0)).sum

/-- What the triple loop of lines 104-126 adds to
`per_class_bucketed_error_sum[c, k, s, e]`: the loop enumerates the two
proximity slices `c < 2`, the speed buckets `s` and the epe buckets `e`
(each an index into the corresponding bounds list), always at the fixed
`class_index`; every other cell receives nothing. -/
def cellSumDelta (thr : ℝ) (sSplits eSplits : List ℝ) (kIdx : ℕ)
    (stats : List (ℝ × ℝ × ℝ)) (c k s e : ℕ) : ℝ :=
  if c < 2 ∧ k = kIdx ∧ s < (bucketBounds sSplits).length ∧ e < (bucketBounds eSplits).length then
    maskedEpeSum thr c ((bucketBounds sSplits).getD s (0, 0))
      ((bucketBounds eSplits).getD e (0, 0)) stats
  else 0

/-- What the same loop adds to `per_class_bucketed_error_count[c, k, s, e]`. -/
def cellCountDelta (thr : ℝ) (sSplits eSplits : List ℝ) (kIdx : ℕ)
    (stats : List (ℝ × ℝ × ℝ)) (c k s e : ℕ) : ℕ :=
  if c < 2 ∧ k = kIdx ∧ s < (bucketBounds sSplits).length ∧ e < (bucketBounds eSplits).length then
    maskedCount thr c ((bucketBounds sSplits).getD s (0, 0))
      ((bucketBounds eSplits).getD e (0, 0)) stats
  else 0

/-- `update_class_error` (model_wrapper.py lines 83-126).  The three
`assert`s of lines 87-91 are checked first (`ShapeMismatch` on failure and
no state is produced); the dict access `class_id_to_index_map[class_id]` of
line 98 raises on an unknown id (`UnknownCategory`); otherwise the two
bucketed tensors receive the per-cell masked sums and counts in place. -/
def updateClassError (m : Metric) (pc : Tensor2) (classId : ℤ)
    (regressedFlow gtFlow : Tensor2) : Except MetricUpdateError Metric :=
  if regressedFlow.shape = gtFlow.shape ∧ regressedFlow.shape.1 = pc.shape.1 ∧ pc.cols = 3 then
    match List.lookup classId (classIdToIndexMap m) with
    | none => .error .UnknownCategory
    | some classIndex =>
      let stats := pointStats pc regressedFlow gtFlow m.perFrameToPerSecondScaleFactor
      .ok { m with
        perClassBucketedErrorSum := fun c k s e =>
          m.perClassBucketedErrorSum c k s e +
            cellSumDelta m.closeObjectThresholdMeters
              m.speedBucketSplitsMetersPerSecond m.endpointErrorSplitsMeters
              classIndex stats c k s e,
        perClassBucketedErrorCount := fun c k s e =>
          m.perClassBucketedErrorCount c k s e +
            cellCountDelta m.closeObjectThresholdMeters
              m.speedBucketSplitsMetersPerSecond m.endpointErrorSplitsMeters
              classIndex stats c k s e }
  else .error .ShapeMismatch

/-- `reset` (lines 132-136): all four tensors are zeroed in place. -/
def resetMetric (m : Metric) : Metric :=
  { m with
    perClassBucketedErrorSum := fun _ _ _ _ => 0,
    perClassBucketedErrorCount := fun _ _ _ _ => 0,
    totalForwardTime := 0,
    totalForwardCount := 0 }

/-- The four accumulator arrays of one metric, as a bundle (the part of the
state that the distributed gather combines). -/
structure AccumulatorState where
  errorSum : ℕ → ℕ → ℕ → ℕ → ℝ
  errorCount : ℕ → ℕ → ℕ → ℕ → ℕ
  forwardTime : ℝ
  forwardCount : ℕ

theorem accumulatorState_fields_ext {a b : AccumulatorState}
    (h1 : a.errorSum = b.errorSum) (h2 : a.errorCount = b.errorCount)
    (h3 : a.forwardTime = b.forwardTime) (h4 : a.forwardCount = b.forwardCount) :
    a = b := by
  cases a; cases b; simp_all

/-- The accumulator part of one metric's state. -/
def accOf (m : Metric) : AccumulatorState :=
  ⟨m.perClassBucketedErrorSum, m.perClassBucketedErrorCount,
   m.totalForwardTime, m.totalForwardCount⟩

/-- The all-zero accumulator state. -/
def zeroAcc : AccumulatorState := ⟨fun _ _ _ _ => 0, fun _ _ _ _ => 0, 0, 0⟩

/-- `gather` (model_wrapper.py lines 60-71): `gather_fn` stacks each of the
four tensors across the processes, and `torch.sum(..., dim=0)` reduces the
process axis, so each field of the result is the element-wise sum of that
field over every process's metric. -/
def gatherMetrics (states : List Metric) : AccumulatorState where
  errorSum := fun c k s e => (states.map (fun m => m.perClassBucketedErrorSum c k s e)).sum
  errorCount := fun c k s e => (states.map (fun m => m.perClassBucketedErrorCount c k s e)).sum
  forwardTime := (states.map (fun m => m.totalForwardTime)).sum
  forwardCount := (states.map (fun m => m.totalForwardCount)).sum

/-- The binary step of the element-wise summation across the process axis:
combination of two accumulator states. -/
def mergeAcc (a b : AccumulatorState) : AccumulatorState where
  errorSum := fun c k s e => a.errorSum c k s e + b.errorSum c k s e
  errorCount := fun c k s e => a.errorCount c k s e + b.errorCount c k s e
  forwardTime := a.forwardTime + b.forwardTime
  forwardCount := a.forwardCount + b.forwardCount

/-- A torch floating scalar: a finite value or one of the IEEE non-finite
results that a division can produce. -/
inductive TorchScalar where
  | finite (x : ℝ)
  | posInf
  | negInf
  | nan

/-- Division of a float scalar by a long scalar, as torch evaluates
`total_forward_time / total_forward_count`: dividing by a zero count yields
NaN (for a zero numerator) or a signed infinity, never an exception. -/
def torchScalarDiv (x : ℝ) (n : ℕ) : TorchScalar :=
  if n = 0 then
    if x = 0 then .nan else if 0 < x then .posInf else .negInf
  else .finite (x / n)

/-- The `validation_result_dict` built on rank 0
(model_wrapper.py lines 372-376). -/
structure ValidationResult where
  perClassBucketedErrorSum : ℕ → ℕ → ℕ → ℕ → ℝ
  perClassBucketedErrorCount : ℕ → ℕ → ℕ → ℕ → ℕ
  averageForwardTime : TorchScalar

/-- `validation_epoch_end` (model_wrapper.py lines 351-385) as run by the
process of the given rank: the gather of line 356 reads every process's
accumulator state as it stands at epoch end, then line 367 resets the
process's own metric; ranks other than 0 return without a report (line 369),
rank 0 builds `validation_result_dict`, whose `average_forward_time` is the
unguarded division of line 375.  The output is the reset local metric, the
gathered global totals this rank computed, and the optional report. -/
def validationEpochEnd (allStates : List Metric) (me : Metric) (rank : ℕ) :
    Metric × AccumulatorState × Option ValidationResult :=
  let g := gatherMetrics allStates
  let me' := resetMetric me
  if rank = 0 then
    (me', g, some ⟨g.errorSum, g.errorCount, torchScalarDiv g.forwardTime g.forwardCount⟩)
  else (me', g, none)

/-- One whole epoch-end phase over all `P` processes: process `rank` runs
`validation_epoch_end` on its own metric while the gather sees every
process's (pre-reset) state. -/
def epochEndPhase (states : List Metric) :
    List (Metric × AccumulatorState × Option ValidationResult) :=
  states.enum.map (fun p => validationEpochEnd states p.2 p.1)

/-- An all-zero freshly constructed metric over a tiny concrete
configuration, used for concrete scenarios. -/
def exampleMetric : Metric :=
  mkMetricDefault [(0, "BACKGROUND"), (1, "CAR")] [0, 5, 10] [0, 1]

/-- A process state holding `error_count = 5` at cell `(0,0,0,0)` and
nothing anywhere else. -/
def count5Metric : Metric :=
  { exampleMetric with
    perClassBucketedErrorCount := fun c k s e =>
      if c = 0 ∧ k = 0 ∧ s = 0 ∧ e = 0 then 5 else 0 }

/-- A one-point point-cloud tensor of shape `(1, 3)`. -/
def pcRow3 : Tensor2 := ⟨3, [[0, 0, 0]]⟩

/-- A one-point flow tensor of shape `(1, 2)`: only two coordinates per
point. -/
def flowRow2 : Tensor2 := ⟨2, [[0, 0]]⟩

/-- An empty tensor of shape `(0, 3)`. -/
def emptyT3 : Tensor2 := ⟨3, []⟩

instance : Inhabited Metric := ⟨mkMetricDefault [] [] []⟩

instance : Inhabited AccumulatorState := ⟨zeroAcc⟩

/-! ## Helper lemmas about the bucket bounds -/

theorem length_bucketBounds (l : List ℝ) : (bucketBounds l).length = l.length - 1 := by
  simp [bucketBounds]

theorem bucketBounds_getD (l : List ℝ) (i : ℕ) (h : i + 1 < l.length) :
    (bucketBounds l).getD i (0, 0) = (l.getD i 0, l.getD (i + 1) 0) := by
  induction l generalizing i with
  | nil => simp at h
  | cons x xs ih =>
    cases xs with
    | nil => simp at h
    | cons y ys =>
      cases i with
      | zero => simp [bucketBounds]
      | succ i =>
        have : bucketBounds (x :: y :: ys) = (x, y) :: bucketBounds (y :: ys) := rfl
        rw [this, List.getD_cons_succ, List.getD_cons_succ, List.getD_cons_succ,
          ih i (by simpa using h)]

theorem bucketBounds_get?_eq_some (l : List ℝ) (i : ℕ) (h : i + 1 < l.length) :
    (bucketBounds l).get? i = some (l.getD i 0, l.getD (i + 1) 0) := by
  have hlen : i < (bucketBounds l).length := by
    rw [length_bucketBounds]; omega
  rw [List.get?_eq_getElem?, List.getElem?_eq_getElem hlen,
    ← List.getD_eq_getElem (bucketBounds l) (0, 0) hlen, bucketBounds_getD l i h]

theorem closeIdx_lt_two (thr d : ℝ) : closeIdx thr d < 2 := by
  unfold closeIdx
  split <;> norm_num

theorem closeMaskAt_closeIdx (thr d : ℝ) : closeMaskAt (closeIdx thr d) (isClose thr d) := by
  by_cases h : d ≤ thr <;> simp [closeMaskAt, closeIdx, isClose, h]

theorem closeMaskAt_ne_closeIdx (thr d : ℝ) (c : ℕ) (hc : c < 2)
    (hne : c ≠ closeIdx thr d) : ¬ closeMaskAt c (isClose thr d) := by
  by_cases h : d ≤ thr
  · have hc0 : closeIdx thr d = 0 := by unfold closeIdx; rw [if_pos h]
    have : c = 1 := by omega
    subst this
    simp [closeMaskAt, isClose, h]
  · have hc1 : closeIdx thr d = 1 := by unfold closeIdx; rw [if_neg h]
    have : c = 0 := by omega
    subst this
    simp [closeMaskAt, isClose, h]

theorem pairwise_le_getD (l : List ℝ) (h : l.Pairwise (· ≤ ·)) {i j : ℕ}
    (hij : i ≤ j) (hj : j < l.length) : l.getD i 0 ≤ l.getD j 0 := by
  rcases Nat.eq_or_lt_of_le hij with rfl | hlt
  · exact le_refl _
  · rw [List.getD_eq_getElem l 0 (by omega), List.getD_eq_getElem l 0 hj]
    exact List.pairwise_iff_getElem.mp h i j (by omega) hj hlt

theorem pairwise_lt_getD (l : List ℝ) (h : l.Pairwise (· < ·)) {i j : ℕ}
    (hij : i < j) (hj : j < l.length) : l.getD i 0 < l.getD j 0 := by
  rw [List.getD_eq_getElem l 0 (by omega), List.getD_eq_getElem l 0 hj]
  exact List.pairwise_iff_getElem.mp h i j (by omega) hj hij

theorem inBounds_disjoint_lt {l : List ℝ} (h : l.Pairwise (· ≤ ·)) {s s' : ℕ} {v : ℝ}
    (hs : s + 1 < l.length) (hs' : s' + 1 < l.length) (hlt : s < s')
    (hv : inBounds ((bucketBounds l).getD s (0, 0)) v) :
    ¬ inBounds ((bucketBounds l).getD s' (0, 0)) v := by
  rw [bucketBounds_getD l s hs] at hv
  rw [bucketBounds_getD l s' hs']
  intro hv'
  have h1 : l.getD (s + 1) 0 ≤ l.getD s' 0 := pairwise_le_getD l h (by omega) (by omega)
  exact absurd (lt_of_lt_of_le hv.2 (le_trans h1 hv'.1)) (lt_irrefl v)

theorem inBounds_disjoint {l : List ℝ} (h : l.Pairwise (· ≤ ·)) {s s' : ℕ} {v : ℝ}
    (hs : s + 1 < l.length) (hs' : s' + 1 < l.length) (hne : s ≠ s')
    (hv : inBounds ((bucketBounds l).getD s (0, 0)) v) :
    ¬ inBounds ((bucketBounds l).getD s' (0, 0)) v := by
  rcases Nat.lt_or_ge s s' with hlt | hge
  · exact inBounds_disjoint_lt h hs hs' hlt hv
  · have hgt : s' < s := by omega
    intro hv'
    exact inBounds_disjoint_lt h hs' hs hgt hv' hv

/-! ## C2 -/

/-- C2: for a boundary list of length `N`, `speed_bucket_bounds` (and
equally `epe_bucket_bounds`) produces exactly `N - 1` half-open buckets;
a value `v` satisfies the bucket-`i` mask exactly when
`boundaries[i] <= v < boundaries[i+1]`; and a value exactly equal to a
bucket's upper bound falls into the next bucket, never the current one. -/
theorem bucket_bounds_halfopen (l : List ℝ) (i j : ℕ) (v w : ℝ)
    (hsort : l.Sorted (· < ·)) (hi : i + 1 < l.length) (hj : j + 2 < l.length)
    (hw : w = l.getD (j + 1) 0) :
    (bucketBounds l).length = l.length - 1 ∧
    (inBounds ((bucketBounds l).getD i (0, 0)) v ↔ l.getD i 0 ≤ v ∧ v < l.getD (i + 1) 0) ∧
    ¬ inBounds ((bucketBounds l).getD j (0, 0)) w ∧
    inBounds ((bucketBounds l).getD (j + 1) (0, 0)) w := by
  refine ⟨length_bucketBounds l, ?_, ?_, ?_⟩
  · rw [bucketBounds_getD l i hi]; exact Iff.rfl
  · rw [bucketBounds_getD l j (by omega)]
    rintro ⟨-, h2⟩
    rw [hw] at h2
    exact lt_irrefl _ h2
  · rw [bucketBounds_getD l (j + 1) (by omega)]
    constructor
    · rw [hw]
    · rw [hw]
      exact pairwise_lt_getD l hsort (Nat.lt_succ_self _) hj

/-- Concrete instance of `bucket_bounds_halfopen` on the boundaries
`[0, 5, 10]`: three boundaries give two buckets, `7` lies in bucket `1`
exactly because `5 <= 7 < 10`, and the value `5` (bucket 0's upper bound)
falls in bucket `1`, not bucket `0`. -/
theorem bucket_bounds_halfopen_witness :
    ([(0 : ℝ), 5, 10].Sorted (· < ·)) ∧ (1 + 1 < ([(0 : ℝ), 5, 10] : List ℝ).length) ∧
    (0 + 2 < ([(0 : ℝ), 5, 10] : List ℝ).length) ∧
    ((5 : ℝ) = ([(0 : ℝ), 5, 10] : List ℝ).getD (0 + 1) 0) ∧
    ((bucketBounds [(0 : ℝ), 5, 10]).length = ([(0 : ℝ), 5, 10] : List ℝ).length - 1 ∧
      (inBounds ((bucketBounds [(0 : ℝ), 5, 10]).getD 1 (0, 0)) 7 ↔
        ([(0 : ℝ), 5, 10] : List ℝ).getD 1 0 ≤ 7 ∧ (7 : ℝ) < ([(0 : ℝ), 5, 10] : List ℝ).getD (1 + 1) 0) ∧
      ¬ inBounds ((bucketBounds [(0 : ℝ), 5, 10]).getD 0 (0, 0)) 5 ∧
      inBounds ((bucketBounds [(0 : ℝ), 5, 10]).getD (0 + 1) (0, 0)) 5) := by
  have hsort : ([(0 : ℝ), 5, 10].Sorted (· < ·)) := by
    simp [List.sorted_cons]; norm_num
  have hw : (5 : ℝ) = ([(0 : ℝ), 5, 10] : List ℝ).getD (0 + 1) 0 := by norm_num
  exact ⟨hsort, by norm_num, by norm_num, hw,
    bucket_bounds_halfopen [(0 : ℝ), 5, 10] 1 0 7 5 hsort (by norm_num) (by norm_num) hw⟩

/-! ## C5 -/

/-- C5: the element-wise summation performed at gather time is commutative
and associative as a binary combination of accumulator states, the gather
over a stack of processes is that combination iterated, and permuting the
order of the processes in the gathered stack leaves the global totals
element-wise unchanged. -/
theorem merge_comm_assoc_perm (a b c : AccumulatorState) :
    mergeAcc a b = mergeAcc b a ∧
    mergeAcc (mergeAcc a b) c = mergeAcc a (mergeAcc b c) ∧
    (∀ (m : Metric) (rest : List Metric),
      gatherMetrics (m :: rest) = mergeAcc (accOf m) (gatherMetrics rest)) ∧
    (∀ s s' : List Metric, s.Perm s' → gatherMetrics s = gatherMetrics s') := by
  refine ⟨?_, ?_, ?_, ?_⟩
  · exact accumulatorState_fields_ext (by funext c' k s e; exact add_comm _ _)
      (by funext c' k s e; exact add_comm _ _) (add_comm _ _) (add_comm _ _)
  · exact accumulatorState_fields_ext (by funext c' k s e; exact add_assoc _ _ _)
      (by funext c' k s e; exact add_assoc _ _ _) (add_assoc _ _ _) (add_assoc _ _ _)
  · intro m rest
    exact accumulatorState_fields_ext (by funext c' k s e; simp [gatherMetrics, mergeAcc, accOf])
      (by funext c' k s e; simp [gatherMetrics, mergeAcc, accOf])
      (by simp [gatherMetrics, mergeAcc, accOf]) (by simp [gatherMetrics, mergeAcc, accOf])
  · intro s s' hp
    exact accumulatorState_fields_ext (by funext c' k s'' e; exact ((hp.map _).sum_eq))
      (by funext c' k s'' e; exact ((hp.map _).sum_eq)) ((hp.map _).sum_eq) ((hp.map _).sum_eq)

/-- Concrete instance of `merge_comm_assoc_perm`: merging two concrete
accumulator states in either order, re-associating a three-way merge, and
swapping the two processes of a gathered stack all agree. -/
theorem merge_comm_assoc_perm_witness :
    mergeAcc (accOf count5Metric) zeroAcc = mergeAcc zeroAcc (accOf count5Metric) ∧
    mergeAcc (mergeAcc (accOf count5Metric) zeroAcc) (accOf exampleMetric) =
      mergeAcc (accOf count5Metric) (mergeAcc zeroAcc (accOf exampleMetric)) ∧
    gatherMetrics [count5Metric, exampleMetric] =
      mergeAcc (accOf count5Metric) (gatherMetrics [exampleMetric]) ∧
    ([count5Metric, exampleMetric].Perm [exampleMetric, count5Metric] ∧
      gatherMetrics [count5Metric, exampleMetric] = gatherMetrics [exampleMetric, count5Metric]) := by
  have hperm : [count5Metric, exampleMetric].Perm [exampleMetric, count5Metric] :=
    List.Perm.swap _ _ _
  have T := merge_comm_assoc_perm (accOf count5Metric) zeroAcc (accOf exampleMetric)
  exact ⟨T.1, T.2.1, T.2.2.1 count5Metric [exampleMetric], hperm, T.2.2.2 _ _ hperm⟩

/-! ## C9 -/

/-- C9: proximity is decided by the L-infinity norm of a point's `(x, y)`
coordinates with an inclusive close side: `xy_distance == threshold` counts
as close, slice 0 of the proximity axis is exactly the close points and
slice 1 exactly the rest, every point lies in exactly one of the two
slices, and the threshold the `ModelWrapper` constructor leaves in place
is the default 35.0 meters. -/
theorem proximity_partition (x y z d thr : ℝ)
    (ps : List (ℤ × String)) (ss es : List ℝ) :
    xyDist [x, y, z] = max |x| |y| ∧
    (isClose thr (xyDist [x, y, z]) ↔ max |x| |y| ≤ thr) ∧
    (d = thr → isClose thr d) ∧
    (closeMaskAt 0 (isClose thr d) ↔ isClose thr d) ∧
    (closeMaskAt 1 (isClose thr d) ↔ ¬ isClose thr d) ∧
    (∃! c : ℕ, c < 2 ∧ closeMaskAt c (isClose thr d)) ∧
    (mkMetricDefault ps ss es).closeObjectThresholdMeters = 35 := by
  have hxy : xyDist [x, y, z] = max |x| |y| := by
    simp only [xyDist, linfNorm, List.take, List.map, List.foldr]
    rw [max_eq_left (abs_nonneg y)]
  refine ⟨hxy, by rw [hxy]; exact Iff.rfl, ?_, by simp [closeMaskAt], by simp [closeMaskAt], ?_, ?_⟩
  · intro hd; rw [hd]; exact le_refl _
  · by_cases hcl : isClose thr d
    · refine ⟨0, ⟨by norm_num, by simpa [closeMaskAt] using hcl⟩, ?_⟩
      rintro c' ⟨hc', hm⟩
      have : c' = 0 ∨ c' = 1 := by omega
      rcases this with rfl | rfl
      · rfl
      · exact absurd hcl (by simpa [closeMaskAt] using hm)
    · refine ⟨1, ⟨by norm_num, by simpa [closeMaskAt] using hcl⟩, ?_⟩
      rintro c' ⟨hc', hm⟩
      have : c' = 0 ∨ c' = 1 := by omega
      rcases this with rfl | rfl
      · exact absurd (by simpa [closeMaskAt] using hm) hcl
      · rfl
  · norm_num [mkMetricDefault, defaultCloseObjectThresholdMeters]

/-- Concrete instance of `proximity_partition` at the point `(35, -3, 1)`:
its horizontal L-infinity distance is exactly the default threshold 35 and
the point is classified close (slice 0 only). -/
theorem proximity_partition_witness :
    ((35 : ℝ) = 35 → isClose 35 (35 : ℝ)) ∧
    (xyDist [(35 : ℝ), -3, 1] = max |(35 : ℝ)| |(-3 : ℝ)| ∧
      (isClose 35 (xyDist [(35 : ℝ), -3, 1]) ↔ max |(35 : ℝ)| |(-3 : ℝ)| ≤ 35) ∧
      ((35 : ℝ) = 35 → isClose 35 (35 : ℝ)) ∧
      (closeMaskAt 0 (isClose 35 (35 : ℝ)) ↔ isClose 35 (35 : ℝ)) ∧
      (closeMaskAt 1 (isClose 35 (35 : ℝ)) ↔ ¬ isClose 35 (35 : ℝ)) ∧
      (∃! c : ℕ, c < 2 ∧ closeMaskAt c (isClose 35 (35 : ℝ))) ∧
      (mkMetricDefault [] [] []).closeObjectThresholdMeters = 35) := by
  have T := proximity_partition 35 (-3) 1 (35 : ℝ) 35 [] [] []
  exact ⟨T.2.2.1, T⟩

/-! ## C7 -/

/-- C7: in the epoch-end phase the gather read precedes the local reset:
each process's gathered global totals are the element-wise sum of all
processes' accumulator states as they stood at epoch end, and afterwards
every process's own four accumulators are zero. -/
theorem gather_before_reset (states : List Metric) (i : ℕ) (h : i < states.length) :
    (epochEndPhase states).length = states.length ∧
    ((epochEndPhase states).getD i default).2.1 = gatherMetrics states ∧
    accOf ((epochEndPhase states).getD i default).1 = zeroAcc := by
  have hlen : (epochEndPhase states).length = states.length := by
    simp [epochEndPhase]
  have hget : (epochEndPhase states).getD i default =
      validationEpochEnd states (states.getD i default) i := by
    rw [List.getD_eq_getElem _ _ (by rw [hlen]; exact h)]
    rw [List.getD_eq_getElem _ _ h]
    simp [epochEndPhase]
  refine ⟨hlen, ?_, ?_⟩
  · rw [hget]
    by_cases hi : i = 0 <;> simp [validationEpochEnd, hi]
  · rw [hget]
    by_cases hi : i = 0 <;> simp [validationEpochEnd, hi] <;> rfl

/-- Concrete instance of `gather_before_reset`: two processes each holding
`error_count = 5` at cell `(0,0,0,0)` gather a global count of 10 at that
cell, and after the phase the second process's local count there is 0. -/
theorem gather_before_reset_witness :
    (1 < ([count5Metric, count5Metric] : List Metric).length) ∧
    ((epochEndPhase [count5Metric, count5Metric]).length =
        ([count5Metric, count5Metric] : List Metric).length ∧
      ((epochEndPhase [count5Metric, count5Metric]).getD 1 default).2.1 =
        gatherMetrics [count5Metric, count5Metric] ∧
      accOf ((epochEndPhase [count5Metric, count5Metric]).getD 1 default).1 = zeroAcc) ∧
    (gatherMetrics [count5Metric, count5Metric]).errorCount 0 0 0 0 = 10 ∧
    ((epochEndPhase [count5Metric, count5Metric]).getD 1 default).1.perClassBucketedErrorCount
      0 0 0 0 = 0 := by
  refine ⟨by norm_num, gather_before_reset _ 1 (by norm_num), ?_, ?_⟩
  · simp [gatherMetrics, count5Metric]
  · simp [epochEndPhase, List.enum, List.enumFrom, validationEpochEnd, resetMetric]

/-! ## C3 -/

/-- C3 (amended): when the gathered `total_forward_count` is zero, rank 0's
epoch-end reporter does not fail; it still produces a report whose
`average_forward_time` is the unguarded quotient, a non-finite scalar
(NaN or a signed infinity), never a finite value. -/
theorem reporter_zero_count_nonfinite (states : List Metric) (me : Metric)
    (h : (gatherMetrics states).forwardCount = 0) :
    Option.map ValidationResult.averageForwardTime (validationEpochEnd states me 0).2.2 =
      some (torchScalarDiv (gatherMetrics states).forwardTime 0) ∧
    ∀ q : ℝ, torchScalarDiv (gatherMetrics states).forwardTime 0 ≠ TorchScalar.finite q := by
  constructor
  · simp [validationEpochEnd, h]
  · intro q
    unfold torchScalarDiv
    rw [if_pos rfl]
    by_cases h0 : (gatherMetrics states).forwardTime = 0
    · rw [if_pos h0]; simp
    · rw [if_neg h0]
      by_cases h1 : 0 < (gatherMetrics states).forwardTime
      · rw [if_pos h1]; simp
      · rw [if_neg h1]; simp

/-- Concrete instance for `reporter_zero_count_nonfinite`, refuting C3 as
stated: with a gathered `total_forward_count` of 0, `validation_epoch_end`
on rank 0 raises nothing — it returns a report whose
`average_forward_time` is NaN (the quotient 0.0 / 0). -/
theorem reporter_zero_count_counterexample :
    (gatherMetrics [exampleMetric]).forwardCount = 0 ∧
    Option.map ValidationResult.averageForwardTime
      (validationEpochEnd [exampleMetric] exampleMetric 0).2.2 = some TorchScalar.nan := by
  constructor
  · simp [gatherMetrics, exampleMetric, mkMetricDefault]
  · simp [validationEpochEnd, gatherMetrics, exampleMetric, mkMetricDefault, torchScalarDiv]

/-- Concrete instance discharging `reporter_zero_count_nonfinite`'s
hypothesis at an explicit input. -/
theorem reporter_zero_count_nonfinite_witness :
    (gatherMetrics [exampleMetric]).forwardCount = 0 ∧
    (Option.map ValidationResult.averageForwardTime
        (validationEpochEnd [exampleMetric] exampleMetric 0).2.2 =
      some (torchScalarDiv (gatherMetrics [exampleMetric]).forwardTime 0) ∧
    ∀ q : ℝ, torchScalarDiv (gatherMetrics [exampleMetric]).forwardTime 0 ≠
      TorchScalar.finite q) := by
  have h : (gatherMetrics [exampleMetric]).forwardCount = 0 := by
    simp [gatherMetrics, exampleMetric, mkMetricDefault]
  exact ⟨h, reporter_zero_count_nonfinite [exampleMetric] exampleMetric h⟩

/-! ## C4 -/

theorem update_ne_shapeMismatch_of_cond (m : Metric) (pc : Tensor2) (cid : ℤ)
    (reg gt : Tensor2)
    (hcond : reg.shape = gt.shape ∧ reg.shape.1 = pc.shape.1 ∧ pc.cols = 3) :
    updateClassError m pc cid reg gt ≠ .error .ShapeMismatch := by
  unfold updateClassError
  rw [if_pos hcond]
  cases List.lookup cid (classIdToIndexMap m) <;> simp

/-- C4 (amended): `update_class_error` fails with `ShapeMismatch` (and then
delivers no mutated state) exactly when the predicted and ground-truth flow
shapes differ, their point count differs from the point array's, or the
point array does not have 3 coordinates per point; inputs where all three
arrays have matching point counts and 3 coordinates per point always pass
the check, but a flow column count other than 3 is not itself rejected as
long as both flow tensors share it. -/
theorem shape_mismatch_iff (m : Metric) (pc reg gt : Tensor2) (cid : ℤ) :
    (updateClassError m pc cid reg gt = .error .ShapeMismatch ↔
      ¬ (reg.rows.length = gt.rows.length ∧ reg.cols = gt.cols ∧
          reg.rows.length = pc.rows.length ∧ pc.cols = 3)) ∧
    (reg.rows.length = pc.rows.length → gt.rows.length = pc.rows.length →
      reg.cols = 3 → gt.cols = 3 → pc.cols = 3 →
      updateClassError m pc cid reg gt ≠ .error .ShapeMismatch) := by
  have hc : (reg.shape = gt.shape ∧ reg.shape.1 = pc.shape.1 ∧ pc.cols = 3) ↔
      (reg.rows.length = gt.rows.length ∧ reg.cols = gt.cols ∧
        reg.rows.length = pc.rows.length ∧ pc.cols = 3) := by
    simp only [Tensor2.shape, Prod.mk.injEq]
    tauto
  constructor
  · by_cases hcond : reg.shape = gt.shape ∧ reg.shape.1 = pc.shape.1 ∧ pc.cols = 3
    · constructor
      · intro hres
        exact absurd hres (update_ne_shapeMismatch_of_cond m pc cid reg gt hcond)
      · intro hn
        exact absurd (hc.mp hcond) hn
    · exact ⟨fun _ hr => hcond (hc.mpr hr),
        fun _ => by unfold updateClassError; rw [if_neg hcond]⟩
  · intro h1 h2 h3 h4 h5
    exact update_ne_shapeMismatch_of_cond m pc cid reg gt
      (hc.mpr ⟨h1.trans h2.symm, h3.trans h4.symm, h1, h5⟩)

/-- Concrete instance of `shape_mismatch_iff`: a consistent `(1, 3)` point
array with `(1, 3)` flow arrays passes the shape check. -/
theorem shape_mismatch_iff_witness :
    (updateClassError exampleMetric pcRow3 0 ⟨3, [[0, 0, 0]]⟩ ⟨3, [[0, 0, 0]]⟩ =
        .error .ShapeMismatch ↔
      ¬ (([[(0 : ℝ), 0, 0]] : List (List ℝ)).length = ([[(0 : ℝ), 0, 0]] : List (List ℝ)).length ∧
          (3 : ℕ) = 3 ∧
          ([[(0 : ℝ), 0, 0]] : List (List ℝ)).length = pcRow3.rows.length ∧ pcRow3.cols = 3)) ∧
    updateClassError exampleMetric pcRow3 0 ⟨3, [[0, 0, 0]]⟩ ⟨3, [[0, 0, 0]]⟩ ≠
      .error .ShapeMismatch := by
  have T := shape_mismatch_iff exampleMetric pcRow3 ⟨3, [[0, 0, 0]]⟩ ⟨3, [[0, 0, 0]]⟩ 0
  exact ⟨T.1, T.2 rfl rfl rfl rfl rfl⟩

/-- Counterexample to C4 as stated: a `(1, 3)` point array together with
`(1, 2)` flow arrays does not give every array 3 coordinates per point,
yet the shape check of `update_class_error` passes and the call succeeds. -/
theorem shape_check_counterexample :
    flowRow2.cols ≠ 3 ∧
    updateClassError exampleMetric pcRow3 0 flowRow2 flowRow2 ≠ .error .ShapeMismatch ∧
    (updateClassError exampleMetric pcRow3 0 flowRow2 flowRow2).toOption.isSome = true := by
  have hcond : flowRow2.shape = flowRow2.shape ∧
      flowRow2.shape.1 = pcRow3.shape.1 ∧ pcRow3.cols = 3 := ⟨rfl, rfl, rfl⟩
  refine ⟨by simp [flowRow2], update_ne_shapeMismatch_of_cond _ _ _ _ _ hcond, ?_⟩
  unfold updateClassError
  rw [if_pos hcond]
  rfl

/-! ## C8 -/

theorem lookup_enumFrom_map (d : ℤ × String) :
    ∀ (ps : List (ℤ × String)) (n i : ℕ), (ps.map Prod.fst).Nodup → i < ps.length →
      List.lookup (ps.getD i d).1 ((ps.enumFrom n).map (fun p => (p.2.1, p.1))) =
        some (n + i) := by
  intro ps
  induction ps with
  | nil => intro n i _ hi; simp at hi
  | cons q rest ih =>
    intro n i hnd hi
    rw [List.map_cons] at hnd
    rcases List.nodup_cons.mp hnd with ⟨hq, hrest⟩
    cases i with
    | zero =>
      simp [List.enumFrom, List.lookup]
    | succ i =>
      have hi' : i < rest.length := Nat.lt_of_succ_lt_succ hi
      have hm : (rest.getD i d).1 ∈ rest.map Prod.fst := by
        rw [List.getD_eq_getElem rest d hi']
        exact List.mem_map_of_mem _ (List.getElem_mem _)
      have hne : ((rest.getD i d).1 == q.1) = false :=
        beq_eq_false_iff_ne.mpr (fun he => hq (he ▸ hm))
      simp only [List.enumFrom, List.map_cons, List.getD_cons_succ]
      rw [List.lookup_cons, hne]
      show List.lookup (rest.getD i d).1
          ((rest.enumFrom (n + 1)).map (fun p => (p.2.1, p.1))) = some (n + (i + 1))
      rw [ih (n + 1) i hrest hi']
      congr 1
      omega

theorem keys_classIdToIndexMap (m : Metric) :
    (classIdToIndexMap m).map Prod.fst = m.classIdToNameMap.map Prod.fst := by
  have h : ∀ (ps : List (ℤ × String)) (n : ℕ),
      ((ps.enumFrom n).map (fun p => (p.2.1, p.1))).map Prod.fst = ps.map Prod.fst := by
    intro ps
    induction ps with
    | nil => intro n; rfl
    | cons q rest ih => intro n; simp [List.enumFrom, ih]
  exact h m.classIdToNameMap 0

/-- C8: calling `update_class_error` with a category id absent from the
configured table fails with `UnknownCategory` (once the shape check is
passed), while every id present in a duplicate-free table looks up exactly
the index `__init__` enumerated for it. -/
theorem category_lookup (m : Metric) (pc reg gt : Tensor2) (cid : ℤ) (i : ℕ) :
    (cid ∉ m.classIdToNameMap.map Prod.fst →
      reg.shape = gt.shape → reg.shape.1 = pc.shape.1 → pc.cols = 3 →
      updateClassError m pc cid reg gt = .error .UnknownCategory) ∧
    ((m.classIdToNameMap.map Prod.fst).Nodup → i < m.classIdToNameMap.length →
      List.lookup (m.classIdToNameMap.getD i (0, "")).1 (classIdToIndexMap m) = some i) := by
  constructor
  · intro habs h1 h2 h3
    have hnone : List.lookup cid (classIdToIndexMap m) = none := by
      rw [List.lookup_eq_none_iff]
      intro p hp
      have hpm : p.1 ∈ (classIdToIndexMap m).map Prod.fst := List.mem_map_of_mem _ hp
      rw [keys_classIdToIndexMap m] at hpm
      simp only [bne_iff_ne]
      exact fun he => habs (he ▸ hpm)
    unfold updateClassError
    rw [if_pos ⟨h1, h2, h3⟩, hnone]
  · intro hnd hi
    have := lookup_enumFrom_map (0, "") m.classIdToNameMap 0 i hnd hi
    simpa [classIdToIndexMap, List.enum] using this

/-- Concrete instance of `category_lookup` on the table
`[(0, BACKGROUND), (1, CAR)]`: id 5 is rejected with `UnknownCategory`,
and id 1 (the table's second entry) looks up index 1. -/
theorem category_lookup_witness :
    ((5 : ℤ) ∉ exampleMetric.classIdToNameMap.map Prod.fst) ∧
    (emptyT3.shape = emptyT3.shape) ∧ (emptyT3.shape.1 = emptyT3.shape.1) ∧
    (emptyT3.cols = 3) ∧
    ((exampleMetric.classIdToNameMap.map Prod.fst).Nodup) ∧
    (1 < exampleMetric.classIdToNameMap.length) ∧
    updateClassError exampleMetric emptyT3 5 emptyT3 emptyT3 = .error .UnknownCategory ∧
    List.lookup (exampleMetric.classIdToNameMap.getD 1 (0, "")).1
      (classIdToIndexMap exampleMetric) = some 1 := by
  have habs : (5 : ℤ) ∉ exampleMetric.classIdToNameMap.map Prod.fst := by
    simp [exampleMetric, mkMetricDefault]
  have hnd : (exampleMetric.classIdToNameMap.map Prod.fst).Nodup := by
    simp [exampleMetric, mkMetricDefault]
  have hlen : 1 < exampleMetric.classIdToNameMap.length := by
    simp [exampleMetric, mkMetricDefault]
  have T := category_lookup exampleMetric emptyT3 emptyT3 emptyT3 5 1
  exact ⟨habs, rfl, rfl, rfl, hnd, hlen, T.1 habs rfl rfl rfl, T.2 hnd hlen⟩

/-! ## C10 -/

theorem cellSumDelta_nil (thr : ℝ) (sSplits eSplits : List ℝ) (kIdx c k s e : ℕ) :
    cellSumDelta thr sSplits eSplits kIdx [] c k s e = 0 := by
  unfold cellSumDelta
  split <;> simp [maskedEpeSum]

theorem cellCountDelta_nil (thr : ℝ) (sSplits eSplits : List ℝ) (kIdx c k s e : ℕ) :
    cellCountDelta thr sSplits eSplits kIdx [] c k s e = 0 := by
  unfold cellCountDelta
  split <;> simp [maskedCount]

/-- C10: a call with zero points (empty arrays of consistent shape and a
known category id) succeeds and is an identity on the whole accumulator:
`error_sum`, `error_count`, `total_forward_time` and `total_forward_count`
are all returned exactly unchanged. -/
theorem empty_update_identity (m : Metric) (cid : ℤ) (k d : ℕ)
    (hk : List.lookup cid (classIdToIndexMap m) = some k) :
    updateClassError m ⟨3, []⟩ cid ⟨d, []⟩ ⟨d, []⟩ = .ok m := by
  unfold updateClassError
  rw [if_pos ⟨rfl, rfl, rfl⟩, hk]
  have hstats : pointStats ⟨3, []⟩ ⟨d, []⟩ ⟨d, []⟩ m.perFrameToPerSecondScaleFactor = [] := rfl
  simp only [hstats]
  congr 1
  refine metric_fields_ext rfl rfl rfl rfl rfl ?_ ?_ rfl rfl
  · funext c k' s e
    simp only [cellSumDelta_nil, add_zero]
  · funext c k' s e
    simp only [cellCountDelta_nil, add_zero]

/-- Concrete instance of `empty_update_identity`: an empty update with
category id 1 on the example metric returns the metric unchanged. -/
theorem empty_update_identity_witness :
    List.lookup (1 : ℤ) (classIdToIndexMap exampleMetric) = some 1 ∧
    updateClassError exampleMetric ⟨3, []⟩ 1 ⟨3, []⟩ ⟨3, []⟩ = .ok exampleMetric := by
  have hk : List.lookup (1 : ℤ) (classIdToIndexMap exampleMetric) = some 1 := by
    simp [exampleMetric, mkMetricDefault, classIdToIndexMap, List.enum, List.enumFrom,
      List.lookup]
  exact ⟨hk, empty_update_identity exampleMetric 1 1 3 hk⟩

/-! ## Helper lemmas for the per-point accumulation (C1, C6) -/

theorem pointStats_append (d1 d2 d3 : ℕ) (pa pb ra rb ga gb : List (List ℝ)) (scale : ℝ)
    (h1 : pa.length = ra.length) (h2 : ra.length = ga.length) :
    pointStats ⟨d1, pa ++ pb⟩ ⟨d2, ra ++ rb⟩ ⟨d3, ga ++ gb⟩ scale =
      pointStats ⟨d1, pa⟩ ⟨d2, ra⟩ ⟨d3, ga⟩ scale ++
        pointStats ⟨d1, pb⟩ ⟨d2, rb⟩ ⟨d3, gb⟩ scale := by
  unfold pointStats rowsSub
  dsimp only
  have hinner : (((List.zipWith (List.zipWith (fun x y => x - y)) ra ga).map l2norm).length =
      (ga.map (fun r => l2norm r * scale)).length) := by
    simp [List.length_zipWith]
    omega
  have houter : ((pa.map xyDist).length =
      (((List.zipWith (List.zipWith (fun x y => x - y)) ra ga).map l2norm).zip
        (ga.map (fun r => l2norm r * scale))).length) := by
    simp [List.length_zip, List.length_zipWith]
    omega
  rw [List.zipWith_append _ ra rb ga gb h2, List.map_append, List.map_append, List.map_append,
    List.zip_append hinner, List.zip_append houter]

theorem maskedEpeSum_append (thr : ℝ) (c : ℕ) (bs be : ℝ × ℝ) (A B : List (ℝ × ℝ × ℝ)) :
    maskedEpeSum thr c bs be (A ++ B) = maskedEpeSum thr c bs be A + maskedEpeSum thr c bs be B := by
  simp [maskedEpeSum]

theorem maskedCount_append (thr : ℝ) (c : ℕ) (bs be : ℝ × ℝ) (A B : List (ℝ × ℝ × ℝ)) :
    maskedCount thr c bs be (A ++ B) = maskedCount thr c bs be A + maskedCount thr c bs be B := by
  simp [maskedCount]

theorem cellSumDelta_append (thr : ℝ) (sS eS : List ℝ) (kIdx : ℕ)
    (A B : List (ℝ × ℝ × ℝ)) (c k s e : ℕ) :
    cellSumDelta thr sS eS kIdx (A ++ B) c k s e =
      cellSumDelta thr sS eS kIdx A c k s e + cellSumDelta thr sS eS kIdx B c k s e := by
  unfold cellSumDelta
  split
  · exact maskedEpeSum_append thr c _ _ A B
  · simp

theorem cellCountDelta_append (thr : ℝ) (sS eS : List ℝ) (kIdx : ℕ)
    (A B : List (ℝ × ℝ × ℝ)) (c k s e : ℕ) :
    cellCountDelta thr sS eS kIdx (A ++ B) c k s e =
      cellCountDelta thr sS eS kIdx A c k s e + cellCountDelta thr sS eS kIdx B c k s e := by
  unfold cellCountDelta
  split
  · exact maskedCount_append thr c _ _ A B
  · simp

/-- Batch additivity of `update_class_error`: processing the concatenation
of two row blocks in one call produces exactly the state of processing the
first block and then the second. -/
theorem updateClassError_append (m : Metric) (cid : ℤ) (dc : ℕ)
    (pa pb ra rb ga gb : List (List ℝ))
    (h1 : pa.length = ra.length) (h2 : ra.length = ga.length)
    (h3 : pb.length = rb.length) (h4 : rb.length = gb.length) :
    updateClassError m ⟨3, pa ++ pb⟩ cid ⟨dc, ra ++ rb⟩ ⟨dc, ga ++ gb⟩ =
      (updateClassError m ⟨3, pa⟩ cid ⟨dc, ra⟩ ⟨dc, ga⟩).bind
        (fun mA => updateClassError mA ⟨3, pb⟩ cid ⟨dc, rb⟩ ⟨dc, gb⟩) := by
  have hcondF : (Tensor2.mk dc (ra ++ rb)).shape = (Tensor2.mk dc (ga ++ gb)).shape ∧
      (Tensor2.mk dc (ra ++ rb)).shape.1 = (Tensor2.mk 3 (pa ++ pb)).shape.1 ∧
      (Tensor2.mk 3 (pa ++ pb)).cols = 3 := by
    refine ⟨?_, ?_, rfl⟩ <;> simp [Tensor2.shape] <;> omega
  have hcondA : (Tensor2.mk dc ra).shape = (Tensor2.mk dc ga).shape ∧
      (Tensor2.mk dc ra).shape.1 = (Tensor2.mk 3 pa).shape.1 ∧
      (Tensor2.mk 3 pa).cols = 3 := by
    refine ⟨?_, ?_, rfl⟩ <;> simp [Tensor2.shape] <;> omega
  have hcondB : (Tensor2.mk dc rb).shape = (Tensor2.mk dc gb).shape ∧
      (Tensor2.mk dc rb).shape.1 = (Tensor2.mk 3 pb).shape.1 ∧
      (Tensor2.mk 3 pb).cols = 3 := by
    refine ⟨?_, ?_, rfl⟩ <;> simp [Tensor2.shape] <;> omega
  unfold updateClassError
  rw [if_pos hcondF, if_pos hcondA]
  cases hlu : List.lookup cid (classIdToIndexMap m) with
  | none => rfl
  | some kIdx =>
    dsimp only [Except.bind]
    rw [if_pos hcondB]
    have hlu2 : List.lookup cid (classIdToIndexMap
        { m with
          perClassBucketedErrorSum := fun c k s e =>
            m.perClassBucketedErrorSum c k s e +
              cellSumDelta m.closeObjectThresholdMeters m.speedBucketSplitsMetersPerSecond
                m.endpointErrorSplitsMeters kIdx
                (pointStats ⟨3, pa⟩ ⟨dc, ra⟩ ⟨dc, ga⟩ m.perFrameToPerSecondScaleFactor) c k s e,
          perClassBucketedErrorCount := fun c k s e =>
            m.perClassBucketedErrorCount c k s e +
              cellCountDelta m.closeObjectThresholdMeters m.speedBucketSplitsMetersPerSecond
                m.endpointErrorSplitsMeters kIdx
                (pointStats ⟨3, pa⟩ ⟨dc, ra⟩ ⟨dc, ga⟩ m.perFrameToPerSecondScaleFactor) c k s e }) =
        some kIdx := hlu
    rw [hlu2]
    dsimp only
    congr 1
    refine metric_fields_ext rfl rfl rfl rfl rfl ?_ ?_ rfl rfl
    · funext c k s e
      dsimp only
      rw [pointStats_append 3 dc dc pa pb ra rb ga gb m.perFrameToPerSecondScaleFactor h1 h2,
        cellSumDelta_append]
      ring
    · funext c k s e
      dsimp only
      rw [pointStats_append 3 dc dc pa pb ra rb ga gb m.perFrameToPerSecondScaleFactor h1 h2,
        cellCountDelta_append]
      omega

theorem cellDelta_singleton_resolved (thr : ℝ) (sS eS : List ℝ) (kIdx s e : ℕ)
    (d ε σ : ℝ)
    (hs : s + 1 < sS.length) (he : e + 1 < eS.length)
    (hσ : inBounds ((bucketBounds sS).getD s (0, 0)) σ)
    (hε : inBounds ((bucketBounds eS).getD e (0, 0)) ε) :
    cellSumDelta thr sS eS kIdx [(d, ε, σ)] (closeIdx thr d) kIdx s e = ε ∧
    cellCountDelta thr sS eS kIdx [(d, ε, σ)] (closeIdx thr d) kIdx s e = 1 := by
  have hcond : closeIdx thr d < 2 ∧ kIdx = kIdx ∧ s < (bucketBounds sS).length ∧
      e < (bucketBounds eS).length := by
    refine ⟨closeIdx_lt_two thr d, rfl, ?_, ?_⟩ <;> rw [length_bucketBounds] <;> omega
  have hmask : totalMask thr (closeIdx thr d) ((bucketBounds sS).getD s (0, 0))
      ((bucketBounds eS).getD e (0, 0)) (d, ε, σ) :=
    ⟨closeMaskAt_closeIdx thr d, hσ, hε⟩
  constructor
  · unfold cellSumDelta
    rw [if_pos hcond]
    unfold maskedEpeSum
    simp only [List.map_cons, List.map_nil, List.sum_cons, List.sum_nil, add_zero]
    rw [if_pos hmask]
  · unfold cellCountDelta
    rw [if_pos hcond]
    unfold maskedCount
    simp only [List.map_cons, List.map_nil, List.sum_cons, List.sum_nil, add_zero]
    rw [if_pos hmask]

theorem cellDelta_singleton_other (thr : ℝ) (sS eS : List ℝ) (kIdx s e : ℕ) (d ε σ : ℝ)
    (hsS : sS.Pairwise (· ≤ ·)) (heS : eS.Pairwise (· ≤ ·))
    (hs : s + 1 < sS.length) (he : e + 1 < eS.length)
    (hσ : inBounds ((bucketBounds sS).getD s (0, 0)) σ)
    (hε : inBounds ((bucketBounds eS).getD e (0, 0)) ε)
    (c' k' s' e' : ℕ) (hne : (c', k', s', e') ≠ (closeIdx thr d, kIdx, s, e)) :
    cellSumDelta thr sS eS kIdx [(d, ε, σ)] c' k' s' e' = 0 ∧
    cellCountDelta thr sS eS kIdx [(d, ε, σ)] c' k' s' e' = 0 := by
  by_cases hcond : c' < 2 ∧ k' = kIdx ∧ s' < (bucketBounds sS).length ∧
      e' < (bucketBounds eS).length
  · obtain ⟨hc2, hkk, hsl, hel⟩ := hcond
    have hs'1 : s' + 1 < sS.length := by rw [length_bucketBounds] at hsl; omega
    have he'1 : e' + 1 < eS.length := by rw [length_bucketBounds] at hel; omega
    have hmaskF : ¬ totalMask thr c' ((bucketBounds sS).getD s' (0, 0))
        ((bucketBounds eS).getD e' (0, 0)) (d, ε, σ) := by
      by_cases hss : s' = s
      · by_cases hee : e' = e
        · have hcne : c' ≠ closeIdx thr d := by
            intro hceq
            exact hne (by rw [hceq, hkk, hss, hee])
          intro hm
          exact closeMaskAt_ne_closeIdx thr d c' hc2 hcne hm.1
        · intro hm
          subst hss
          exact inBounds_disjoint heS he he'1 (fun hh => hee hh.symm) hε hm.2.2
      · intro hm
        exact inBounds_disjoint hsS hs hs'1 (fun hh => hss hh.symm) hσ hm.2.1
    constructor
    · unfold cellSumDelta
      rw [if_pos ⟨hc2, hkk, hsl, hel⟩]
      unfold maskedEpeSum
      simp only [List.map_cons, List.map_nil, List.sum_cons, List.sum_nil, add_zero]
      rw [if_neg hmaskF]
    · unfold cellCountDelta
      rw [if_pos ⟨hc2, hkk, hsl, hel⟩]
      unfold maskedCount
      simp only [List.map_cons, List.map_nil, List.sum_cons, List.sum_nil, add_zero]
      rw [if_neg hmaskF]
  · unfold cellSumDelta cellCountDelta
    rw [if_neg hcond, if_neg hcond]
    exact ⟨rfl, rfl⟩

/-! ## C1 -/

/-- C1: a shape-valid single-point call with a known category id, whose
ground-truth speed lies in speed bucket `s` and whose endpoint error lies
in epe bucket `e` (boundary lists sorted), adds exactly that point's
endpoint-error magnitude to `error_sum` and exactly 1 to `error_count` at
the one resolved cell `(proximity, class index, s, e)`, leaves every other
cell of both tensors unchanged and mutates nothing else; and a batched
call over concatenated point blocks equals the sequential composition of
the calls on the blocks, so per-point and batched processing agree. -/
theorem update_class_error_single_point (m : Metric) (p r g : List ℝ) (cid : ℤ)
    (kIdx s e dc : ℕ)
    (hsS : m.speedBucketSplitsMetersPerSecond.Pairwise (· ≤ ·))
    (heS : m.endpointErrorSplitsMeters.Pairwise (· ≤ ·))
    (hk : List.lookup cid (classIdToIndexMap m) = some kIdx)
    (hs : s + 1 < m.speedBucketSplitsMetersPerSecond.length)
    (he : e + 1 < m.endpointErrorSplitsMeters.length)
    (hσ : inBounds ((bucketBounds m.speedBucketSplitsMetersPerSecond).getD s (0, 0))
      (l2norm g * m.perFrameToPerSecondScaleFactor))
    (hε : inBounds ((bucketBounds m.endpointErrorSplitsMeters).getD e (0, 0))
      (l2norm (List.zipWith (fun x y => x - y) r g))) :
    (∃ m', updateClassError m ⟨3, [p]⟩ cid ⟨dc, [r]⟩ ⟨dc, [g]⟩ = .ok m' ∧
      m'.perClassBucketedErrorSum (closeIdx m.closeObjectThresholdMeters (xyDist p)) kIdx s e =
        m.perClassBucketedErrorSum (closeIdx m.closeObjectThresholdMeters (xyDist p)) kIdx s e +
          l2norm (List.zipWith (fun x y => x - y) r g) ∧
      m'.perClassBucketedErrorCount (closeIdx m.closeObjectThresholdMeters (xyDist p)) kIdx s e =
        m.perClassBucketedErrorCount (closeIdx m.closeObjectThresholdMeters (xyDist p)) kIdx s e
          + 1 ∧
      (∀ c' k' s' e', (c', k', s', e') ≠
          (closeIdx m.closeObjectThresholdMeters (xyDist p), kIdx, s, e) →
        m'.perClassBucketedErrorSum c' k' s' e' = m.perClassBucketedErrorSum c' k' s' e' ∧
        m'.perClassBucketedErrorCount c' k' s' e' = m.perClassBucketedErrorCount c' k' s' e') ∧
      m'.totalForwardTime = m.totalForwardTime ∧
      m'.totalForwardCount = m.totalForwardCount ∧
      m'.classIdToNameMap = m.classIdToNameMap ∧
      m'.speedBucketSplitsMetersPerSecond = m.speedBucketSplitsMetersPerSecond ∧
      m'.endpointErrorSplitsMeters = m.endpointErrorSplitsMeters ∧
      m'.closeObjectThresholdMeters = m.closeObjectThresholdMeters ∧
      m'.perFrameToPerSecondScaleFactor = m.perFrameToPerSecondScaleFactor) ∧
    (∀ (m₀ : Metric) (cid₀ : ℤ) (dc₀ : ℕ) (pa pb ra rb ga gb : List (List ℝ)),
      pa.length = ra.length → ra.length = ga.length →
      pb.length = rb.length → rb.length = gb.length →
      updateClassError m₀ ⟨3, pa ++ pb⟩ cid₀ ⟨dc₀, ra ++ rb⟩ ⟨dc₀, ga ++ gb⟩ =
        (updateClassError m₀ ⟨3, pa⟩ cid₀ ⟨dc₀, ra⟩ ⟨dc₀, ga⟩).bind
          (fun mA => updateClassError mA ⟨3, pb⟩ cid₀ ⟨dc₀, rb⟩ ⟨dc₀, gb⟩)) := by
  constructor
  · have hstats : pointStats ⟨3, [p]⟩ ⟨dc, [r]⟩ ⟨dc, [g]⟩ m.perFrameToPerSecondScaleFactor =
        [(xyDist p, l2norm (List.zipWith (fun x y => x - y) r g),
          l2norm g * m.perFrameToPerSecondScaleFactor)] := rfl
    refine ⟨{ m with
        perClassBucketedErrorSum := fun c k s e =>
          m.perClassBucketedErrorSum c k s e +
            cellSumDelta m.closeObjectThresholdMeters m.speedBucketSplitsMetersPerSecond
              m.endpointErrorSplitsMeters kIdx
              (pointStats ⟨3, [p]⟩ ⟨dc, [r]⟩ ⟨dc, [g]⟩ m.perFrameToPerSecondScaleFactor) c k s e,
        perClassBucketedErrorCount := fun c k s e =>
          m.perClassBucketedErrorCount c k s e +
            cellCountDelta m.closeObjectThresholdMeters m.speedBucketSplitsMetersPerSecond
              m.endpointErrorSplitsMeters kIdx
              (pointStats ⟨3, [p]⟩ ⟨dc, [r]⟩ ⟨dc, [g]⟩ m.perFrameToPerSecondScaleFactor) c k s e },
      ?_, ?_, ?_, ?_, rfl, rfl, rfl, rfl, rfl, rfl, rfl⟩
    · unfold updateClassError
      rw [if_pos ⟨rfl, rfl, rfl⟩, hk]
    · dsimp only
      rw [hstats]
      rw [(cellDelta_singleton_resolved m.closeObjectThresholdMeters
        m.speedBucketSplitsMetersPerSecond m.endpointErrorSplitsMeters kIdx s e
        (xyDist p) (l2norm (List.zipWith (fun x y => x - y) r g))
        (l2norm g * m.perFrameToPerSecondScaleFactor) hs he hσ hε).1]
    · dsimp only
      rw [hstats]
      rw [(cellDelta_singleton_resolved m.closeObjectThresholdMeters
        m.speedBucketSplitsMetersPerSecond m.endpointErrorSplitsMeters kIdx s e
        (xyDist p) (l2norm (List.zipWith (fun x y => x - y) r g))
        (l2norm g * m.perFrameToPerSecondScaleFactor) hs he hσ hε).2]
    · intro c' k' s' e' hne
      have hother := cellDelta_singleton_other m.closeObjectThresholdMeters
        m.speedBucketSplitsMetersPerSecond m.endpointErrorSplitsMeters kIdx s e
        (xyDist p) (l2norm (List.zipWith (fun x y => x - y) r g))
        (l2norm g * m.perFrameToPerSecondScaleFactor) hsS heS hs he hσ hε c' k' s' e' hne
      constructor
      · dsimp only
        rw [hstats, hother.1, add_zero]
      · dsimp only
        rw [hstats, hother.2, add_zero]
  · intro m₀ cid₀ dc₀ pa pb ra rb ga gb h1 h2 h3 h4
    exact updateClassError_append m₀ cid₀ dc₀ pa pb ra rb ga gb h1 h2 h3 h4

/-- Concrete instance of `update_class_error_single_point`: on the example
metric, the single point `[0,0,0]` with zero predicted and ground-truth
flow has speed 0 (bucket 0), endpoint error 0 (bucket 0) and is close, so
the call adds its error magnitude at one cell and 1 to that cell's count. -/
theorem update_class_error_single_point_witness :
    exampleMetric.speedBucketSplitsMetersPerSecond.Pairwise (· ≤ ·) ∧
    exampleMetric.endpointErrorSplitsMeters.Pairwise (· ≤ ·) ∧
    List.lookup (0 : ℤ) (classIdToIndexMap exampleMetric) = some 0 ∧
    0 + 1 < exampleMetric.speedBucketSplitsMetersPerSecond.length ∧
    0 + 1 < exampleMetric.endpointErrorSplitsMeters.length ∧
    inBounds ((bucketBounds exampleMetric.speedBucketSplitsMetersPerSecond).getD 0 (0, 0))
      (l2norm [0, 0, 0] * exampleMetric.perFrameToPerSecondScaleFactor) ∧
    inBounds ((bucketBounds exampleMetric.endpointErrorSplitsMeters).getD 0 (0, 0))
      (l2norm (List.zipWith (fun x y => x - y) [0, 0, 0] [0, 0, 0])) ∧
    ((∃ m', updateClassError exampleMetric ⟨3, [[0, 0, 0]]⟩ 0 ⟨3, [[0, 0, 0]]⟩
          ⟨3, [[0, 0, 0]]⟩ = .ok m' ∧
      m'.perClassBucketedErrorSum
          (closeIdx exampleMetric.closeObjectThresholdMeters (xyDist [0, 0, 0])) 0 0 0 =
        exampleMetric.perClassBucketedErrorSum
          (closeIdx exampleMetric.closeObjectThresholdMeters (xyDist [0, 0, 0])) 0 0 0 +
          l2norm (List.zipWith (fun x y => x - y) [0, 0, 0] [0, 0, 0]) ∧
      m'.perClassBucketedErrorCount
          (closeIdx exampleMetric.closeObjectThresholdMeters (xyDist [0, 0, 0])) 0 0 0 =
        exampleMetric.perClassBucketedErrorCount
          (closeIdx exampleMetric.closeObjectThresholdMeters (xyDist [0, 0, 0])) 0 0 0 + 1 ∧
      (∀ c' k' s' e', (c', k', s', e') ≠
          (closeIdx exampleMetric.closeObjectThresholdMeters (xyDist [0, 0, 0]), 0, 0, 0) →
        m'.perClassBucketedErrorSum c' k' s' e' =
          exampleMetric.perClassBucketedErrorSum c' k' s' e' ∧
        m'.perClassBucketedErrorCount c' k' s' e' =
          exampleMetric.perClassBucketedErrorCount c' k' s' e') ∧
      m'.totalForwardTime = exampleMetric.totalForwardTime ∧
      m'.totalForwardCount = exampleMetric.totalForwardCount ∧
      m'.classIdToNameMap = exampleMetric.classIdToNameMap ∧
      m'.speedBucketSplitsMetersPerSecond = exampleMetric.speedBucketSplitsMetersPerSecond ∧
      m'.endpointErrorSplitsMeters = exampleMetric.endpointErrorSplitsMeters ∧
      m'.closeObjectThresholdMeters = exampleMetric.closeObjectThresholdMeters ∧
      m'.perFrameToPerSecondScaleFactor = exampleMetric.perFrameToPerSecondScaleFactor) ∧
    (∀ (m₀ : Metric) (cid₀ : ℤ) (dc₀ : ℕ) (pa pb ra rb ga gb : List (List ℝ)),
      pa.length = ra.length → ra.length = ga.length →
      pb.length = rb.length → rb.length = gb.length →
      updateClassError m₀ ⟨3, pa ++ pb⟩ cid₀ ⟨dc₀, ra ++ rb⟩ ⟨dc₀, ga ++ gb⟩ =
        (updateClassError m₀ ⟨3, pa⟩ cid₀ ⟨dc₀, ra⟩ ⟨dc₀, ga⟩).bind
          (fun mA => updateClassError mA ⟨3, pb⟩ cid₀ ⟨dc₀, rb⟩ ⟨dc₀, gb⟩))) := by
  have hl2 : l2norm ([0, 0, 0] : List ℝ) = 0 := by
    norm_num [l2norm]
  have hsS : exampleMetric.speedBucketSplitsMetersPerSecond.Pairwise (· ≤ ·) := by
    norm_num [exampleMetric, mkMetricDefault, List.pairwise_cons]
  have heS : exampleMetric.endpointErrorSplitsMeters.Pairwise (· ≤ ·) := by
    norm_num [exampleMetric, mkMetricDefault, List.pairwise_cons]
  have hk : List.lookup (0 : ℤ) (classIdToIndexMap exampleMetric) = some 0 := by
    simp [exampleMetric, mkMetricDefault, classIdToIndexMap, List.enum, List.enumFrom,
      List.lookup]
  have hs : 0 + 1 < exampleMetric.speedBucketSplitsMetersPerSecond.length := by
    simp [exampleMetric, mkMetricDefault]
  have he : 0 + 1 < exampleMetric.endpointErrorSplitsMeters.length := by
    simp [exampleMetric, mkMetricDefault]
  have hσ : inBounds ((bucketBounds exampleMetric.speedBucketSplitsMetersPerSecond).getD 0 (0, 0))
      (l2norm [0, 0, 0] * exampleMetric.perFrameToPerSecondScaleFactor) := by
    rw [hl2]
    norm_num [exampleMetric, mkMetricDefault, bucketBounds, inBounds]
  have hε : inBounds ((bucketBounds exampleMetric.endpointErrorSplitsMeters).getD 0 (0, 0))
      (l2norm (List.zipWith (fun x y => x - y) [0, 0, 0] [0, 0, 0])) := by
    have hz : List.zipWith (fun x y : ℝ => x - y) [0, 0, 0] [0, 0, 0] = [0, 0, 0] := by
      norm_num
    rw [hz, hl2]
    norm_num [exampleMetric, mkMetricDefault, bucketBounds, inBounds]
  exact ⟨hsS, heS, hk, hs, he, hσ, hε,
    update_class_error_single_point exampleMetric [0, 0, 0] [0, 0, 0] [0, 0, 0] 0 0 0 0 3
      hsS heS hk hs he hσ hε⟩

/-! ## C6 -/

theorem cellDelta_singleton_outside (thr : ℝ) (sS eS : List ℝ) (kIdx : ℕ) (d ε σ : ℝ)
    (hout : (∀ i, i + 1 < sS.length → ¬ inBounds ((bucketBounds sS).getD i (0, 0)) σ) ∨
      (∀ i, i + 1 < eS.length → ¬ inBounds ((bucketBounds eS).getD i (0, 0)) ε))
    (c k s e : ℕ) :
    cellSumDelta thr sS eS kIdx [(d, ε, σ)] c k s e = 0 ∧
    cellCountDelta thr sS eS kIdx [(d, ε, σ)] c k s e = 0 := by
  by_cases hcond : c < 2 ∧ k = kIdx ∧ s < (bucketBounds sS).length ∧
      e < (bucketBounds eS).length
  · obtain ⟨hc2, hkk, hsl, hel⟩ := hcond
    have hs1 : s + 1 < sS.length := by rw [length_bucketBounds] at hsl; omega
    have he1 : e + 1 < eS.length := by rw [length_bucketBounds] at hel; omega
    have hmaskF : ¬ totalMask thr c ((bucketBounds sS).getD s (0, 0))
        ((bucketBounds eS).getD e (0, 0)) (d, ε, σ) := by
      rcases hout with hO | hO
      · intro hm; exact hO s hs1 hm.2.1
      · intro hm; exact hO e he1 hm.2.2
    constructor
    · unfold cellSumDelta
      rw [if_pos ⟨hc2, hkk, hsl, hel⟩]
      unfold maskedEpeSum
      simp only [List.map_cons, List.map_nil, List.sum_cons, List.sum_nil, add_zero]
      rw [if_neg hmaskF]
    · unfold cellCountDelta
      rw [if_pos ⟨hc2, hkk, hsl, hel⟩]
      unfold maskedCount
      simp only [List.map_cons, List.map_nil, List.sum_cons, List.sum_nil, add_zero]
      rw [if_neg hmaskF]
  · unfold cellSumDelta cellCountDelta
    rw [if_neg hcond, if_neg hcond]
    exact ⟨rfl, rfl⟩

/-- C6: a point whose ground-truth speed, or whose endpoint-error
magnitude, lies outside every configured bucket contributes nothing: a
call on input containing the point produces exactly the state the call
would produce with the point absent. -/
theorem outside_buckets_excluded (m : Metric) (cid : ℤ) (dc : ℕ)
    (pa pb ra rb ga gb : List (List ℝ)) (p r g : List ℝ)
    (h1 : pa.length = ra.length) (h2 : ra.length = ga.length)
    (h3 : pb.length = rb.length) (h4 : rb.length = gb.length)
    (hout : (∀ i, i + 1 < m.speedBucketSplitsMetersPerSecond.length →
        ¬ inBounds ((bucketBounds m.speedBucketSplitsMetersPerSecond).getD i (0, 0))
          (l2norm g * m.perFrameToPerSecondScaleFactor)) ∨
      (∀ i, i + 1 < m.endpointErrorSplitsMeters.length →
        ¬ inBounds ((bucketBounds m.endpointErrorSplitsMeters).getD i (0, 0))
          (l2norm (List.zipWith (fun x y => x - y) r g)))) :
    updateClassError m ⟨3, pa ++ p :: pb⟩ cid ⟨dc, ra ++ r :: rb⟩ ⟨dc, ga ++ g :: gb⟩ =
      updateClassError m ⟨3, pa ++ pb⟩ cid ⟨dc, ra ++ rb⟩ ⟨dc, ga ++ gb⟩ := by
  have e1 : pa ++ p :: pb = pa ++ ([p] ++ pb) := rfl
  have e2 : ra ++ r :: rb = ra ++ ([r] ++ rb) := rfl
  have e3 : ga ++ g :: gb = ga ++ ([g] ++ gb) := rfl
  have hcondF : (Tensor2.mk dc (ra ++ ([r] ++ rb))).shape =
      (Tensor2.mk dc (ga ++ ([g] ++ gb))).shape ∧
      (Tensor2.mk dc (ra ++ ([r] ++ rb))).shape.1 = (Tensor2.mk 3 (pa ++ ([p] ++ pb))).shape.1 ∧
      (Tensor2.mk 3 (pa ++ ([p] ++ pb))).cols = 3 := by
    refine ⟨?_, ?_, rfl⟩ <;> simp [Tensor2.shape] <;> omega
  have hcondR : (Tensor2.mk dc (ra ++ rb)).shape = (Tensor2.mk dc (ga ++ gb)).shape ∧
      (Tensor2.mk dc (ra ++ rb)).shape.1 = (Tensor2.mk 3 (pa ++ pb)).shape.1 ∧
      (Tensor2.mk 3 (pa ++ pb)).cols = 3 := by
    refine ⟨?_, ?_, rfl⟩ <;> simp [Tensor2.shape] <;> omega
  rw [e1, e2, e3]
  unfold updateClassError
  rw [if_pos hcondF, if_pos hcondR]
  cases hlu : List.lookup cid (classIdToIndexMap m) with
  | none => rfl
  | some kIdx =>
    dsimp only
    congr 1
    refine metric_fields_ext rfl rfl rfl rfl rfl ?_ ?_ rfl rfl
    · funext c k s e
      dsimp only
      rw [pointStats_append 3 dc dc pa ([p] ++ pb) ra ([r] ++ rb) ga ([g] ++ gb)
          m.perFrameToPerSecondScaleFactor h1 h2,
        pointStats_append 3 dc dc [p] pb [r] rb [g] gb m.perFrameToPerSecondScaleFactor rfl rfl,
        pointStats_append 3 dc dc pa pb ra rb ga gb m.perFrameToPerSecondScaleFactor h1 h2,
        cellSumDelta_append, cellSumDelta_append, cellSumDelta_append,
        show pointStats ⟨3, [p]⟩ ⟨dc, [r]⟩ ⟨dc, [g]⟩ m.perFrameToPerSecondScaleFactor =
          [(xyDist p, l2norm (List.zipWith (fun x y => x - y) r g),
            l2norm g * m.perFrameToPerSecondScaleFactor)] from rfl,
        (cellDelta_singleton_outside m.closeObjectThresholdMeters
          m.speedBucketSplitsMetersPerSecond m.endpointErrorSplitsMeters kIdx
          (xyDist p) (l2norm (List.zipWith (fun x y => x - y) r g))
          (l2norm g * m.perFrameToPerSecondScaleFactor) hout c k s e).1]
      ring
    · funext c k s e
      dsimp only
      rw [pointStats_append 3 dc dc pa ([p] ++ pb) ra ([r] ++ rb) ga ([g] ++ gb)
          m.perFrameToPerSecondScaleFactor h1 h2,
        pointStats_append 3 dc dc [p] pb [r] rb [g] gb m.perFrameToPerSecondScaleFactor rfl rfl,
        pointStats_append 3 dc dc pa pb ra rb ga gb m.perFrameToPerSecondScaleFactor h1 h2,
        cellCountDelta_append, cellCountDelta_append, cellCountDelta_append,
        show pointStats ⟨3, [p]⟩ ⟨dc, [r]⟩ ⟨dc, [g]⟩ m.perFrameToPerSecondScaleFactor =
          [(xyDist p, l2norm (List.zipWith (fun x y => x - y) r g),
            l2norm g * m.perFrameToPerSecondScaleFactor)] from rfl,
        (cellDelta_singleton_outside m.closeObjectThresholdMeters
          m.speedBucketSplitsMetersPerSecond m.endpointErrorSplitsMeters kIdx
          (xyDist p) (l2norm (List.zipWith (fun x y => x - y) r g))
          (l2norm g * m.perFrameToPerSecondScaleFactor) hout c k s e).2]
      omega

/-- Concrete instance of `outside_buckets_excluded`: a close point whose
ground-truth speed is exactly 10 m/s lies outside both speed buckets
`[0,5)` and `[5,10)` of the example metric (it sits at the top boundary),
so the call with that point equals the call without it. -/
theorem outside_buckets_excluded_witness :
    (∀ i, i + 1 < exampleMetric.speedBucketSplitsMetersPerSecond.length →
      ¬ inBounds ((bucketBounds exampleMetric.speedBucketSplitsMetersPerSecond).getD i (0, 0))
        (l2norm [0, 0, 1] * exampleMetric.perFrameToPerSecondScaleFactor)) ∧
    updateClassError exampleMetric ⟨3, [] ++ [0, 0, 100] :: []⟩ 0 ⟨3, [] ++ [0, 0, 0] :: []⟩
        ⟨3, [] ++ [0, 0, 1] :: []⟩ =
      updateClassError exampleMetric ⟨3, [] ++ []⟩ 0 ⟨3, [] ++ []⟩ ⟨3, [] ++ []⟩ := by
  have hl : l2norm ([0, 0, 1] : List ℝ) = 1 := by
    norm_num [l2norm]
  have hout : ∀ i, i + 1 < exampleMetric.speedBucketSplitsMetersPerSecond.length →
      ¬ inBounds ((bucketBounds exampleMetric.speedBucketSplitsMetersPerSecond).getD i (0, 0))
        (l2norm [0, 0, 1] * exampleMetric.perFrameToPerSecondScaleFactor) := by
    intro i hi
    rw [hl]
    have hi2 : i < 2 := by
      simp only [exampleMetric, mkMetricDefault, List.length_cons, List.length_nil] at hi
      omega
    interval_cases i <;>
      norm_num [exampleMetric, mkMetricDefault, defaultPerFrameToPerSecondScaleFactor,
        bucketBounds, inBounds]
  exact ⟨hout, outside_buckets_excluded exampleMetric 0 3 [] [] [] [] [] []
    [0, 0, 100] [0, 0, 0] [0, 0, 1] rfl rfl rfl rfl (Or.inl hout)⟩

end
